import Mathlib

/-!
# netspel: command-line driver and mock writer

A shallow embedding of `netspel/main.go` (functions `parseAssignment`, `config`, `scheme`,
`write`, `read`, `initLogs`) and of `schemes/internal/mocks/mock_writer.go`
(`NewMockWriter`, `MockWriter.Write`).

Modelling conventions.

* A Go `string` is a `List Char`.  The only separator the program splits on is `=`, a one-byte
  character that never occurs inside a multi-byte UTF-8 sequence, so splitting per character and
  splitting per byte cut a string at the same places.
* `parseAssignment` returns Go's pair `(value, error)` as a pair whose second component is an
  `Option Error` (`none` is Go's `nil`); a call into another package, whose value is not used
  when it fails, returns an `Except Error`.
* `panic(err)` and the calls that print or reach other packages are recorded by the `Run` monad:
  a list of observable events together with either the returned value or the error the process
  panicked with.
* Go's `int` is taken to be 64 bits wide.
-/

namespace Netspel

/-- A Go string. -/
abbrev Str := List Char

/-- The two error kinds of `strconv.NumError`. -/
inductive NumErr where
  | ErrSyntax
  | ErrRange
  deriving DecidableEq, Repr

/-- Error values that reach `panic` in `main.go`. -/
inductive Error where
  /-- The value of `fmt.Errorf(format, arg)`. -/
  | Errorf (format : Str) (arg : Str)
  /-- A `*strconv.NumError` with its function name, its input and its kind. -/
  | NumError (func : Str) (num : Str) (err : NumErr)
  /-- The Go runtime error of indexing a slice out of range. -/
  | IndexOutOfRange
  /-- An error returned by a package whose source is not part of `main.go`. -/
  | External (code : Nat)
  deriving DecidableEq, Repr

deriving instance DecidableEq for Except

/-! ## `strings.Split` and `parseAssignment` -/

/-- Go's `strings.Split(s, sep)` for a separator `sep` of one character: the pieces of `s`
between consecutive occurrences of `sep`; a string without `sep` gives the one piece `s`. -/
def Split : Str → Char → List Str
  | [], _ => [[]]
  | c :: cs, sep =>
    if c = sep then [] :: Split cs sep
    else
      match Split cs sep with
      | [] => [[c]]
      | p :: ps => (c :: p) :: ps

/-- The format string of the error of `parseAssignment`. -/
def assignmentFormat : Str := "Values must be of the form <key>=<value>, %s".toList

/-- `parseAssignment` of `main.go`: split at `=`, and accept exactly two pieces. -/
def parseAssignment (assignment : Str) : List Str × Option Error :=
  let keyValue := Split assignment '='
  if keyValue.length ≠ 2 then
    ([], some (Error.Errorf assignmentFormat assignment))
  else
    (keyValue, none)

/-! ## `strconv.Atoi` -/

/-- The function name recorded in the errors of `strconv.Atoi`. -/
def fnAtoi : Str := "Atoi".toList

/-- The value of a decimal digit, `none` for any other character. -/
def digitVal (c : Char) : Option Nat :=
  if 48 ≤ c.toNat ∧ c.toNat ≤ 57 then some (c.toNat - 48) else none

/-- The number written by a string of decimal digits, continuing from `n`. -/
def parseDigits : Str → Nat → Option Nat
  | [], n => some n
  | c :: cs, n =>
    match digitVal c with
    | none => none
    | some d => parseDigits cs (n * 10 + d)

/-- Go's `strconv.Atoi` for a 64-bit `int`: an optional sign followed by at least one decimal
digit and nothing else; a number outside the range of `int` is a range error. -/
def Atoi (s : Str) : Except Error Int :=
  let body : Str :=
    match s with
    | '+' :: r => r
    | '-' :: r => r
    | _ => s
  if body = [] then .error (.NumError fnAtoi s .ErrSyntax)
  else
    match parseDigits body 0 with
    | none => .error (.NumError fnAtoi s .ErrSyntax)
    | some n =>
      if s.head? = some '-' then
        if 2 ^ 63 < n then .error (.NumError fnAtoi s .ErrRange) else .ok (-(n : Int))
      else
        if 2 ^ 63 ≤ n then .error (.NumError fnAtoi s .ErrRange) else .ok (n : Int)

/-! ## The configuration -/

/-- A value of the additional settings: a string or an integer. -/
inductive Value where
  | String (s : Str)
  | Int (n : Int)
  deriving DecidableEq, Repr

/-- Modelled from the spec: the type of `factory.Config.Additional`, whose declaration is in the
`factory` package.  It is "a mapping from configuration key (string) to either a string or
integer value"; the mapping is kept as a list of entries with at most one entry per key once it
has been written through `SetString` and `SetInt`. -/
structure Additional where
  entries : List (Str × Value)
  deriving DecidableEq, Repr

/-- The value the settings hold for a key. -/
def Additional.get (a : Additional) (key : Str) : Option Value :=
  a.entries.lookup key

/-- Modelled from the spec: `Additional.SetString` of the `factory` package, an overwriting map
insertion of a string value. -/
def Additional.SetString (a : Additional) (key value : Str) : Additional :=
  ⟨(key, Value.String value) :: a.entries.filter (fun e => e.1 ≠ key)⟩

/-- Modelled from the spec: `Additional.SetInt` of the `factory` package, an overwriting map
insertion of an integer value. -/
def Additional.SetInt (a : Additional) (key : Str) (value : Int) : Additional :=
  ⟨(key, Value.Int value) :: a.entries.filter (fun e => e.1 ≠ key)⟩

/-- Modelled from the spec: the type `factory.Config`, whose declaration is in the `factory`
package: the additional settings "plus three reserved string fields: scheme type, writer type,
reader type". -/
structure Config where
  SchemeType : Str
  WriterType : Str
  ReaderType : Str
  Additional : Additional
  deriving DecidableEq, Repr

/-! ## The command line -/

/-- The part of `*cli.Context` that `main.go` uses: the value of a global string flag (the empty
string when the flag is not given) and the values of a global string-slice flag. -/
structure Context where
  GlobalString : Str → Str
  GlobalStringSlice : Str → List Str

/-- The context of a command line, given as its global flags in the order they are written, each
with its value: a string flag holds the value written last, a string-slice flag collects its
values in the order written. -/
def parseFlags (flags : List (Str × Str)) : Context where
  GlobalString name := ((flags.filter (fun f => f.1 = name)).map (fun f => f.2)).getLastD []
  GlobalStringSlice name := (flags.filter (fun f => f.1 = name)).map (fun f => f.2)

/-! ## Transports, schemes and the other packages -/

/-- A message, a sequence of bytes. -/
abbrev Msg := List UInt8

/-- A call on a transport. -/
inductive Traffic where
  | Write (message : Msg)
  | Read
  deriving DecidableEq, Repr

/-- A `factory.Writer` as `main.go` sees it: its `Init`. -/
structure Writer where
  Init : Additional → Option Error

/-- A `factory.Reader` as `main.go` sees it: its `Init`. -/
structure Reader where
  Init : Additional → Option Error

/-- A `factory.Scheme` as `main.go` sees it: its `Init`, and the calls `RunWriter` and
`RunReader` make on the transport they are handed. -/
structure Scheme where
  Init : Additional → Option Error
  RunWriter : Writer → List Traffic
  RunReader : Reader → List Traffic

/-- A logging level of the `go-logging` package. -/
abbrev Level := Nat

/-- The level `logging.INFO`. -/
def INFO : Level := 4

/-- The functions of other packages that `main.go` calls, as parameters: the `factory` package
(`Parse`, `LoadFromFile`, `CreateScheme`, `CreateWriter`, `CreateReader`, with the file system
and the registered types behind them) and `logging.LogLevel`. -/
structure Env where
  Parse : Str → Except Error Config
  LoadFromFile : Str → Except Error Config
  CreateScheme : Str → Except Error Scheme
  CreateWriter : Str → Except Error Writer
  CreateReader : Str → Except Error Reader
  LogLevel : Str → Except Error Level

/-! ## Runs -/

/-- What a run of the program does that can be observed from outside `main.go`. -/
inductive Event where
  /-- The call `logs.LogLevel.SetLevel(level, "netspel")`. -/
  | SetLevel (level : Level)
  /-- The call `cli.ShowAppHelp(context)`, which prints the usage text. -/
  | ShowAppHelp
  /-- The call `factory.Parse(doc)`. -/
  | Parse (doc : Str)
  /-- The call `factory.LoadFromFile(path)`. -/
  | LoadFromFile (path : Str)
  /-- The call `factory.CreateScheme(name)`. -/
  | CreateScheme (name : Str)
  /-- The call `scheme.Init(additional)` on the scheme created under `name`. -/
  | SchemeInit (name : Str) (additional : Additional)
  /-- The call `factory.CreateWriter(name)`. -/
  | CreateWriter (name : Str)
  /-- The call `writer.Init(additional)` on the writer created under `name`. -/
  | WriterInit (name : Str) (additional : Additional)
  /-- The call `factory.CreateReader(name)`. -/
  | CreateReader (name : Str)
  /-- The call `reader.Init(additional)` on the reader created under `name`. -/
  | ReaderInit (name : Str) (additional : Additional)
  /-- The call `scheme.RunWriter(writer)`, with the names both were created under. -/
  | RunWriter (scheme writer : Str)
  /-- The call `scheme.RunReader(reader)`, with the names both were created under. -/
  | RunReader (scheme reader : Str)
  /-- A call on the transport. -/
  | Traffic (t : Traffic)
  deriving DecidableEq, Repr

/-- A run: the events in the order they happen, and either the value returned or the error the
process panicked with. -/
structure Run (α : Type) where
  trace : List Event
  val : Except Error α

/-- Return a value, with no event. -/
def Run.pure {α : Type} (a : α) : Run α := ⟨[], .ok a⟩

/-- Sequence two runs; a panic of the first ends the run. -/
def Run.bind {α β : Type} (m : Run α) (f : α → Run β) : Run β :=
  match m.val with
  | .error e => ⟨m.trace, .error e⟩
  | .ok a => ⟨m.trace ++ (f a).trace, (f a).val⟩

instance : Monad Run where
  pure := Run.pure
  bind := Run.bind

/-- Record one event. -/
def emit (e : Event) : Run Unit := ⟨[e], .ok ()⟩

/-- Go's `panic(err)`. -/
def goPanic {α : Type} (err : Error) : Run α := ⟨[], .error err⟩

/-! ## `main.go` -/

/-- `initLogs` of `main.go`. -/
def initLogs (env : Env) (context : Context) : Run Unit :=
  let level :=
    match env.LogLevel (context.GlobalString "log-level".toList) with
    | .error _ => INFO
    | .ok level => level
  emit (.SetLevel level)

/-- Lines 138 to 149 of `config`: parse the empty document or load the file, and print the
usage text and panic when that fails. -/
def loadConfig (env : Env) (context : Context) : Run Config := do
  let configPath := context.GlobalString "config".toList
  let loaded ←
    if configPath = [] then do
      emit (.Parse "\x7b\x7d".toList)
      pure (env.Parse "\x7b\x7d".toList)
    else do
      emit (.LoadFromFile configPath)
      pure (env.LoadFromFile configPath)
  match loaded with
  | .error err => do
    emit .ShowAppHelp
    goPanic err
  | .ok config => pure config

/-- Lines 151 to 162 of `config`: the three type overrides. -/
def applyTypeOverrides (context : Context) (config : Config) : Config :=
  let schemeType := context.GlobalString "scheme".toList
  let config := if schemeType ≠ [] then { config with SchemeType := schemeType } else config
  let writerType := context.GlobalString "writer".toList
  let config := if writerType ≠ [] then { config with WriterType := writerType } else config
  let readerType := context.GlobalString "reader".toList
  let config := if readerType ≠ [] then { config with ReaderType := readerType } else config
  config

/-- The body of the loop of lines 164 to 171 of `config`, for one `--config-string` value. -/
def setStringOverride (config : Config) (assignment : Str) : Run Config :=
  match parseAssignment assignment with
  | (_, some err) => goPanic err
  | (keyValue, none) =>
    match keyValue[0]?, keyValue[1]? with
    | some key, some value =>
      pure { config with Additional := config.Additional.SetString key value }
    | _, _ => goPanic .IndexOutOfRange

/-- The body of the loop of lines 172 to 184 of `config`, for one `--config-int` value. -/
def setIntOverride (config : Config) (assignment : Str) : Run Config :=
  match parseAssignment assignment with
  | (_, some err) => goPanic err
  | (keyValue, none) =>
    match keyValue[0]?, keyValue[1]? with
    | some key, some text =>
      match Atoi text with
      | .error err => goPanic err
      | .ok value => pure { config with Additional := config.Additional.SetInt key value }
    | _, _ => goPanic .IndexOutOfRange

/-- `config` of `main.go`. -/
def config (env : Env) (context : Context) : Run Config := do
  let config ← loadConfig env context
  let config := applyTypeOverrides context config
  let config ← (context.GlobalStringSlice "config-string".toList).foldlM setStringOverride config
  let config ← (context.GlobalStringSlice "config-int".toList).foldlM setIntOverride config
  pure config

/-- `scheme` of `main.go`. -/
def scheme (env : Env) (config : Config) (_context : Context) : Run Scheme := do
  emit (.CreateScheme config.SchemeType)
  match env.CreateScheme config.SchemeType with
  | .error err => do
    emit .ShowAppHelp
    goPanic err
  | .ok scheme => do
    emit (.SchemeInit config.SchemeType config.Additional)
    match scheme.Init config.Additional with
    | some err => goPanic err
    | none => pure scheme

/-- The calls a scheme makes on its transport while it runs. -/
def traffic (ts : List Traffic) : Run Unit := ⟨ts.map Event.Traffic, .ok ()⟩

/-- `write` of `main.go`. -/
def write (env : Env) (context : Context) : Run Unit := do
  initLogs env context
  let config ← config env context
  let scheme ← scheme env config context
  emit (.CreateWriter config.WriterType)
  match env.CreateWriter config.WriterType with
  | .error err => goPanic err
  | .ok writer => do
    emit (.WriterInit config.WriterType config.Additional)
    match writer.Init config.Additional with
    | some err => do
      emit .ShowAppHelp
      goPanic err
    | none => do
      emit (.RunWriter config.SchemeType config.WriterType)
      traffic (scheme.RunWriter writer)

/-- `read` of `main.go`. -/
def read (env : Env) (context : Context) : Run Unit := do
  initLogs env context
  let config ← config env context
  let scheme ← scheme env config context
  emit (.CreateReader config.ReaderType)
  match env.CreateReader config.ReaderType with
  | .error err => do
    emit .ShowAppHelp
    goPanic err
  | .ok reader => do
    emit (.ReaderInit config.ReaderType config.Additional)
    match reader.Init config.Additional with
    | some err => goPanic err
    | none => do
      emit (.RunReader config.SchemeType config.ReaderType)
      traffic (scheme.RunReader reader)

/-! ## The mock writer -/

/-- A buffered Go channel of messages: its capacity and the messages pending in it, oldest
first. -/
structure Chan where
  cap : Nat
  buf : List Msg
  deriving DecidableEq, Repr

/-- The send `ch <- message` with no receiver waiting: the message joins the buffer when there
is room; with a full buffer the send blocks, which is `none`. -/
def Chan.send (ch : Chan) (message : Msg) : Option Chan :=
  if ch.buf.length < ch.cap then some { ch with buf := ch.buf ++ [message] } else none

/-- The struct `MockWriter`. -/
structure MockWriter where
  Messages : Chan
  deriving DecidableEq, Repr

/-- `NewMockWriter` of `mock_writer.go`. -/
def NewMockWriter : MockWriter := { Messages := { cap := 10000, buf := [] } }

/-- `MockWriter.Write` of `mock_writer.go`: the writer afterwards and the pair returned, or
`none` when the send blocks. -/
def MockWriter.Write (m : MockWriter) (message : Msg) :
    Option (MockWriter × (Nat × Option Error)) :=
  match m.Messages.send message with
  | none => none
  | some ch => some ({ m with Messages := ch }, (message.length, none))

/-- Write the messages one after the other, as a caller of `Write` does. -/
def writeAll : MockWriter → List Msg → Option MockWriter
  | m, [] => some m
  | m, message :: rest =>
    match m.Write message with
    | none => none
    | some (m', _) => writeAll m' rest

/-! ## Notions used to state the properties -/

/-- The key an override names: the first piece of its split, when `parseAssignment` accepts
it. -/
def overrideKey (assignment : Str) : Option Str :=
  (parseAssignment assignment).1[0]?

/-- One of the startup steps of `write` fails: building the configuration, creating the scheme,
the scheme's `Init`, creating the writer, or the writer's `Init`. -/
def writeStartupFails (env : Env) (context : Context) : Prop :=
  (∃ e, (config env context).val = .error e) ∨
  ∃ cfg, (config env context).val = .ok cfg ∧
    ((∃ e, env.CreateScheme cfg.SchemeType = .error e) ∨
     (∃ s e, env.CreateScheme cfg.SchemeType = .ok s ∧ s.Init cfg.Additional = some e) ∨
     (∃ e, env.CreateWriter cfg.WriterType = .error e) ∨
     (∃ w e, env.CreateWriter cfg.WriterType = .ok w ∧ w.Init cfg.Additional = some e))

/-- One of the startup steps of `read` fails: building the configuration, creating the scheme,
the scheme's `Init`, creating the reader, or the reader's `Init`. -/
def readStartupFails (env : Env) (context : Context) : Prop :=
  (∃ e, (config env context).val = .error e) ∨
  ∃ cfg, (config env context).val = .ok cfg ∧
    ((∃ e, env.CreateScheme cfg.SchemeType = .error e) ∨
     (∃ s e, env.CreateScheme cfg.SchemeType = .ok s ∧ s.Init cfg.Additional = some e) ∨
     (∃ e, env.CreateReader cfg.ReaderType = .error e) ∨
     (∃ r e, env.CreateReader cfg.ReaderType = .ok r ∧ r.Init cfg.Additional = some e))

/-- The trace holds no call of `RunWriter` or `RunReader` and no call on a transport. -/
def noTraffic (trace : List Event) : Prop :=
  (∀ s w, Event.RunWriter s w ∉ trace) ∧ (∀ s r, Event.RunReader s r ∉ trace) ∧
    ∀ t, Event.Traffic t ∉ trace

/-- The event is a call of `RunWriter`. -/
def Event.isRunWriter : Event → Bool
  | .RunWriter _ _ => true
  | _ => false

/-- The event is a call of `RunReader`. -/
def Event.isRunReader : Event → Bool
  | .RunReader _ _ => true
  | _ => false

/-! ## Sample inputs -/

/-- The configuration of a file that sets the three types and one additional key. -/
def fileConfig : Config :=
  { SchemeType := "simple".toList, WriterType := "udp".toList, ReaderType := "udp".toList,
    Additional := ⟨[("count".toList, Value.Int 5)]⟩ }

/-- The configuration of an empty document. -/
def emptyConfig : Config :=
  { SchemeType := [], WriterType := [], ReaderType := [], Additional := ⟨[]⟩ }

/-- A scheme whose `Init` succeeds and which writes two messages or reads twice. -/
def sampleScheme : Scheme :=
  { Init := fun _ => none
    RunWriter := fun _ => [Traffic.Write [1], Traffic.Write [2]]
    RunReader := fun _ => [Traffic.Read, Traffic.Read] }

/-- A scheme whose `Init` fails. -/
def brokenScheme : Scheme := { sampleScheme with Init := fun _ => some (Error.External 4) }

/-- An environment with the file `netspel.json`, the schemes `simple` and `broken`, and the
writers and readers `udp` and `broken`; what is named `broken` fails in its `Init`. -/
def sampleEnv : Env where
  Parse _ := .ok emptyConfig
  LoadFromFile path :=
    if path = "netspel.json".toList then .ok fileConfig else .error (Error.External 1)
  CreateScheme name :=
    if name = "simple".toList then .ok sampleScheme
    else if name = "broken".toList then .ok brokenScheme
    else .error (Error.External 2)
  CreateWriter name :=
    if name = "udp".toList then .ok { Init := fun _ => none }
    else if name = "broken".toList then .ok { Init := fun _ => some (Error.External 5) }
    else .error (Error.External 3)
  CreateReader name :=
    if name = "udp".toList then .ok { Init := fun _ => none }
    else if name = "broken".toList then .ok { Init := fun _ => some (Error.External 5) }
    else .error (Error.External 3)
  LogLevel _ := .error (Error.External 6)

/-- The command line `--config netspel.json --scheme streaming --writer sse --reader sse`. -/
def overrideTypes : Context :=
  parseFlags [("config".toList, "netspel.json".toList), ("scheme".toList, "streaming".toList),
    ("writer".toList, "sse".toList), ("reader".toList, "sse".toList)]

/-- The command line `--config netspel.json --config-int count=10`. -/
def countTen : Context :=
  parseFlags [("config".toList, "netspel.json".toList), ("config-int".toList, "count=10".toList)]

/-- The command line `--config netspel.json --config-int count=bad`. -/
def countBad : Context :=
  parseFlags [("config".toList, "netspel.json".toList), ("config-int".toList, "count=bad".toList)]

/-- The command line `--config-int k=1 --config-string k=x`. -/
def intThenString : Context :=
  parseFlags [("config-int".toList, "k=1".toList), ("config-string".toList, "k=x".toList)]

/-- The command line `--config netspel.json`. -/
def fileOnly : Context := parseFlags [("config".toList, "netspel.json".toList)]

/-- The command line `--config netspel.json --writer nosuch`. -/
def unknownWriter : Context :=
  parseFlags [("config".toList, "netspel.json".toList), ("writer".toList, "nosuch".toList)]

/-- The command line `--config netspel.json --reader nosuch`. -/
def unknownReader : Context :=
  parseFlags [("config".toList, "netspel.json".toList), ("reader".toList, "nosuch".toList)]

/-- The command line `--config netspel.json --writer broken --reader broken`. -/
def brokenTransport : Context :=
  parseFlags [("config".toList, "netspel.json".toList), ("writer".toList, "broken".toList),
    ("reader".toList, "broken".toList)]

/-- The command line `--config netspel.json --scheme broken`. -/
def brokenSchemeInit : Context :=
  parseFlags [("config".toList, "netspel.json".toList), ("scheme".toList, "broken".toList)]

/-- The command line `--config netspel.json --config-string count`. -/
def malformedOverride : Context :=
  parseFlags [("config".toList, "netspel.json".toList), ("config-string".toList, "count".toList)]

/-! ### Facts about `Split` -/

theorem Split_ne_nil (s : Str) (sep : Char) : Split s sep ≠ [] := by
  induction s with
  | nil => simp [Split]
  | cons c cs ih =>
    simp only [Split]
    split
    · simp
    · split <;> simp

theorem Split_length (s : Str) (sep : Char) : (Split s sep).length = s.count sep + 1 := by
  induction s with
  | nil => simp [Split]
  | cons c cs ih =>
    simp only [Split]
    by_cases h : c = sep
    · subst h
      simp [ih]
    · have hne : (c == sep) = false := by simpa using h
      rw [if_neg h, List.count_cons, hne]
      cases hs : Split cs sep with
      | nil => exact absurd hs (Split_ne_nil cs sep)
      | cons p ps =>
        rw [hs] at ih
        simpa using ih

theorem Split_of_not_mem (s : Str) (sep : Char) (h : sep ∉ s) : Split s sep = [s] := by
  induction s with
  | nil => simp [Split]
  | cons d ds ih =>
    have hd : d ≠ sep := fun e => h (by simp [e])
    have hds : sep ∉ ds := fun e => h (by simp [e])
    simp [Split, if_neg hd, ih hds]

/-- The shape of a split into exactly two pieces. -/
theorem Split_eq_pair (s : Str) (sep : Char) (k v : Str) (h : Split s sep = [k, v]) :
    k ++ sep :: v = s ∧ sep ∉ k ∧ sep ∉ v := by
  induction s generalizing k with
  | nil => simp [Split] at h
  | cons c cs ih =>
    simp only [Split] at h
    by_cases hc : c = sep
    · subst hc
      rw [if_pos rfl] at h
      have hk : k = [] := by
        have := congrArg List.head? h
        simpa using this.symm
      have hv : Split cs c = [v] := by
        have := congrArg List.tail h
        simpa using this
      subst hk
      have hlen := Split_length cs c
      rw [hv] at hlen
      have hcount : cs.count c = 0 := by simpa using hlen.symm
      have hnot : c ∉ cs := List.count_eq_zero.mp hcount
      have hcs : cs = v := by
        have := Split_of_not_mem cs c hnot
        rw [hv] at this
        simpa using this.symm
      subst hcs
      exact ⟨rfl, by simp, hnot⟩
    · rw [if_neg hc] at h
      cases hs : Split cs sep with
      | nil => exact absurd hs (Split_ne_nil cs sep)
      | cons p ps =>
        rw [hs] at h
        simp only [List.cons.injEq] at h
        obtain ⟨h1, h2⟩ := h
        subst h2
        obtain ⟨e1, e2, e3⟩ := ih p hs
        subst h1
        refine ⟨by simp [e1], ?_, e3⟩
        intro hmem
        rcases List.mem_cons.mp hmem with e | e
        · exact hc e.symm
        · exact e2 e

/-! ### Facts about runs -/

@[simp] theorem pure_trace {α : Type} (a : α) : (pure a : Run α).trace = [] := rfl

@[simp] theorem pure_val {α : Type} (a : α) : (pure a : Run α).val = .ok a := rfl

@[simp] theorem emit_bind {β : Type} (e : Event) (f : Unit → Run β) :
    (emit e >>= f) = ⟨e :: (f ()).trace, (f ()).val⟩ := rfl

@[simp] theorem goPanic_bind {α β : Type} (e : Error) (f : α → Run β) :
    ((goPanic e : Run α) >>= f) = ⟨[], .error e⟩ := rfl

@[simp] theorem pure_bind_run {α β : Type} (a : α) (f : α → Run β) :
    ((pure a : Run α) >>= f) = f a := rfl

@[simp] theorem mk_ok_bind {α β : Type} (t : List Event) (a : α) (f : α → Run β) :
    ((⟨t, .ok a⟩ : Run α) >>= f) = ⟨t ++ (f a).trace, (f a).val⟩ := rfl

@[simp] theorem mk_error_bind {α β : Type} (t : List Event) (e : Error) (f : α → Run β) :
    ((⟨t, .error e⟩ : Run α) >>= f) = ⟨t, .error e⟩ := rfl

theorem bind_ok {α β : Type} (m : Run α) (f : α → Run β) (a : α) (h : m.val = .ok a) :
    (m >>= f) = ⟨m.trace ++ (f a).trace, (f a).val⟩ := by
  show Run.bind m f = _
  unfold Run.bind
  rw [h]

theorem bind_error {α β : Type} (m : Run α) (f : α → Run β) (e : Error)
    (h : m.val = .error e) : (m >>= f) = ⟨m.trace, .error e⟩ := by
  show Run.bind m f = _
  unfold Run.bind
  rw [h]

theorem foldlM_trace {σ α : Type} (f : σ → α → Run σ) (hf : ∀ c a, (f c a).trace = [])
    (as : List α) (c : σ) : (as.foldlM f c).trace = [] := by
  induction as generalizing c with
  | nil => rfl
  | cons a as ih =>
    rw [List.foldlM_cons]
    cases h : (f c a).val with
    | error e => rw [bind_error _ _ e h]; exact hf c a
    | ok c' => rw [bind_ok _ _ c' h]; simp [hf, ih]

theorem foldlM_val_cons_ok {σ α : Type} (f : σ → α → Run σ) (a : α) (as : List α) (c c' : σ)
    (h : (f c a).val = .ok c') : ((a :: as).foldlM f c).val = (as.foldlM f c').val := by
  rw [List.foldlM_cons, bind_ok _ _ c' h]

theorem foldlM_val_cons_error {σ α : Type} (f : σ → α → Run σ) (a : α) (as : List α) (c : σ)
    (e : Error) (h : (f c a).val = .error e) : ((a :: as).foldlM f c).val = .error e := by
  rw [List.foldlM_cons, bind_error _ _ e h]

/-- A fold that returns has run its first part to some state and its second part from there. -/
theorem foldlM_val_append_ok {σ α : Type} (f : σ → α → Run σ) (pre post : List α) (c r : σ)
    (h : ((pre ++ post).foldlM f c).val = .ok r) :
    ∃ c', (pre.foldlM f c).val = .ok c' ∧ (post.foldlM f c').val = .ok r := by
  induction pre generalizing c with
  | nil => exact ⟨c, rfl, h⟩
  | cons a as ih =>
    cases hs : (f c a).val with
    | error e =>
      rw [List.cons_append, foldlM_val_cons_error f a _ c e hs] at h
      cases h
    | ok c1 =>
      rw [List.cons_append, foldlM_val_cons_ok f a _ c c1 hs] at h
      obtain ⟨c', h1, h2⟩ := ih c1 h
      exact ⟨c', by rw [foldlM_val_cons_ok f a _ c c1 hs]; exact h1, h2⟩

/-- A fold one of whose steps panics in every state panics. -/
theorem foldlM_val_error_of_mem {σ α : Type} (f : σ → α → Run σ) (as : List α) (a : α)
    (hmem : a ∈ as) (hf : ∀ c, ∃ e, (f c a).val = .error e) (c : σ) :
    ∃ e, (as.foldlM f c).val = .error e := by
  induction as generalizing c with
  | nil => cases hmem
  | cons b bs ih =>
    cases hs : (f c b).val with
    | error e => exact ⟨e, foldlM_val_cons_error f b bs c e hs⟩
    | ok c1 =>
      rw [foldlM_val_cons_ok f b bs c c1 hs]
      rcases List.mem_cons.mp hmem with hab | hab
      · subst hab
        obtain ⟨e, he⟩ := hf c
        rw [hs] at he
        cases he
      · exact ih hab c1

/-- A property kept by every step that returns is kept by a fold that returns. -/
theorem foldlM_val_invariant {σ α : Type} (f : σ → α → Run σ) (P : σ → Prop) (as : List α)
    (hf : ∀ c a c', a ∈ as → (f c a).val = .ok c' → P c → P c') (c r : σ)
    (h : (as.foldlM f c).val = .ok r) (hc : P c) : P r := by
  induction as generalizing c with
  | nil => cases h; exact hc
  | cons a as ih =>
    cases hs : (f c a).val with
    | error e =>
      rw [foldlM_val_cons_error f a _ c e hs] at h
      cases h
    | ok c1 =>
      rw [foldlM_val_cons_ok f a _ c c1 hs] at h
      exact ih (fun c a c' hm => hf c a c' (List.mem_cons_of_mem _ hm)) c1 h
        (hf c a c1 (List.mem_cons_self _ _) hs hc)

/-! ### Facts about the additional settings -/

theorem lookup_filter_ne (es : List (Str × Value)) (key k : Str) (h : k ≠ key) :
    (es.filter (fun e => e.1 ≠ key)).lookup k = es.lookup k := by
  induction es with
  | nil => rfl
  | cons e es ih =>
    obtain ⟨k1, v1⟩ := e
    by_cases h1 : k1 = key
    · subst h1
      have hk : (k == k1) = false := by simpa using h
      simpa [List.filter_cons, List.lookup_cons, hk] using ih
    · by_cases h2 : k = k1
      · subst h2
        simp [List.filter_cons, h1]
      · have hk : (k == k1) = false := by simpa using h2
        simpa [List.filter_cons, List.lookup_cons, h1, hk] using ih

theorem get_SetString_self (a : Additional) (key value : Str) :
    (a.SetString key value).get key = some (Value.String value) := by
  simp [Additional.SetString, Additional.get]

theorem get_SetInt_self (a : Additional) (key : Str) (n : Int) :
    (a.SetInt key n).get key = some (Value.Int n) := by
  simp [Additional.SetInt, Additional.get]

theorem get_SetString_ne (a : Additional) (key value k : Str) (h : k ≠ key) :
    (a.SetString key value).get k = a.get k := by
  have hk : (k == key) = false := by simpa using h
  simp only [Additional.SetString, Additional.get, List.lookup_cons, hk]
  exact lookup_filter_ne a.entries key k h

theorem get_SetInt_ne (a : Additional) (key : Str) (n : Int) (k : Str) (h : k ≠ key) :
    (a.SetInt key n).get k = a.get k := by
  have hk : (k == key) = false := by simpa using h
  simp only [Additional.SetInt, Additional.get, List.lookup_cons, hk]
  exact lookup_filter_ne a.entries key k h

/-- Success of `parseAssignment` is a split into exactly two pieces. -/
theorem parseAssignment_ok_iff (s : Str) :
    (parseAssignment s).2 = none ↔ (Split s '=').length = 2 := by
  unfold parseAssignment
  by_cases h : (Split s '=').length = 2 <;> simp [h]

theorem parseAssignment_of_split (s k v : Str) (h : Split s '=' = [k, v]) :
    parseAssignment s = ([k, v], none) := by
  unfold parseAssignment
  simp [h]

theorem parseAssignment_ok_pair (s : Str) (h : (parseAssignment s).2 = none) :
    ∃ k v, Split s '=' = [k, v] ∧ parseAssignment s = ([k, v], none) := by
  have hlen := (parseAssignment_ok_iff s).mp h
  match hs : Split s '=', hlen with
  | [k, v], _ => exact ⟨k, v, rfl, parseAssignment_of_split s k v hs⟩

/-! ## `parseAssignment` -/

/-- C1: `parseAssignment s` succeeds exactly when `s` contains exactly one `=`; for every other
`s` it returns the error built from `s` together with an empty key/value list. -/
theorem parseAssignment_succeeds_iff_one_eq (s : Str) :
    ((parseAssignment s).2 = none ↔ s.count '=' = 1) ∧
    (s.count '=' ≠ 1 →
      parseAssignment s = ([], some (Error.Errorf assignmentFormat s))) := by
  have hlen := Split_length s '='
  constructor
  · rw [parseAssignment_ok_iff, hlen]
    omega
  · intro h
    have h2 : (Split s '=').length ≠ 2 := by rw [hlen]; omega
    unfold parseAssignment
    simp [h2]

/-- The string `a=b=c`, with two `=`, is refused with an empty list, and `a=b` is accepted. -/
theorem parseAssignment_succeeds_iff_one_eq_witness :
    parseAssignment "a=b=c".toList
        = ([], some (Error.Errorf assignmentFormat "a=b=c".toList)) ∧
      (parseAssignment "a=b".toList).2 = none :=
  ⟨(parseAssignment_succeeds_iff_one_eq "a=b=c".toList).2 (by decide),
    (parseAssignment_succeeds_iff_one_eq "a=b".toList).1.mpr (by decide)⟩

/-- C10: whenever `parseAssignment s` succeeds it returns exactly two strings `key` and `value`
with `key ++ "=" ++ value = s`, neither of which contains `=`. -/
theorem parseAssignment_key_value (s : Str) (h : (parseAssignment s).2 = none) :
    ∃ key value, (parseAssignment s).1 = [key, value] ∧ key ++ "=".toList ++ value = s ∧
      '=' ∉ key ∧ '=' ∉ value := by
  obtain ⟨k, v, hs, hp⟩ := parseAssignment_ok_pair s h
  obtain ⟨e1, e2, e3⟩ := Split_eq_pair s '=' k v hs
  refine ⟨k, v, by rw [hp], ?_, e2, e3⟩
  rw [← e1]
  simp

/-- The string `k=` succeeds, with key `k` and an empty value. -/
theorem parseAssignment_key_value_witness :
    (parseAssignment "k=".toList).1 = ["k".toList, []] ∧
      ∃ key value, (parseAssignment "k=".toList).1 = [key, value] ∧
        key ++ "=".toList ++ value = "k=".toList ∧ '=' ∉ key ∧ '=' ∉ value :=
  ⟨by decide, parseAssignment_key_value "k=".toList (by decide)⟩

/-! ### Facts about `config` -/

theorem loadConfig_val (env : Env) (ctx : Context) :
    (loadConfig env ctx).val =
      if ctx.GlobalString "config".toList = [] then env.Parse "\x7b\x7d".toList
      else env.LoadFromFile (ctx.GlobalString "config".toList) := by
  unfold loadConfig
  by_cases h : ctx.GlobalString "config".toList = []
  · simp only [h, if_true, emit_bind, pure_bind_run]
    cases env.Parse "\x7b\x7d".toList <;> rfl
  · simp only [h, if_false, emit_bind, pure_bind_run]
    cases env.LoadFromFile (ctx.GlobalString "config".toList) <;> rfl

theorem loadConfig_trace_ok (env : Env) (ctx : Context) (file : Config)
    (h : (loadConfig env ctx).val = .ok file) :
    (loadConfig env ctx).trace =
      if ctx.GlobalString "config".toList = [] then [Event.Parse "\x7b\x7d".toList]
      else [Event.LoadFromFile (ctx.GlobalString "config".toList)] := by
  have hv := loadConfig_val env ctx
  rw [h] at hv
  unfold loadConfig
  by_cases hp : ctx.GlobalString "config".toList = []
  · simp only [hp, if_true, emit_bind, pure_bind_run] at hv ⊢
    rw [← hv]
    rfl
  · simp only [hp, if_false, emit_bind, pure_bind_run] at hv ⊢
    rw [← hv]
    rfl

theorem loadConfig_noTraffic (env : Env) (ctx : Context) :
    noTraffic (loadConfig env ctx).trace := by
  unfold loadConfig noTraffic
  by_cases hp : ctx.GlobalString "config".toList = []
  · simp only [hp, if_true, emit_bind, pure_bind_run]
    cases env.Parse "\x7b\x7d".toList <;> simp [goPanic]
  · simp only [hp, if_false, emit_bind, pure_bind_run]
    cases env.LoadFromFile (ctx.GlobalString "config".toList) <;> simp [goPanic]

theorem setStringOverride_trace (c : Config) (a : Str) : (setStringOverride c a).trace = [] := by
  unfold setStringOverride
  split
  · rfl
  · split <;> rfl

theorem setIntOverride_trace (c : Config) (a : Str) : (setIntOverride c a).trace = [] := by
  unfold setIntOverride
  split
  · rfl
  · split
    · split <;> rfl
    · rfl

theorem setStringOverride_of_pair (c : Config) (a key value : Str)
    (h : parseAssignment a = ([key, value], none)) :
    setStringOverride c a = pure { c with Additional := c.Additional.SetString key value } := by
  unfold setStringOverride
  rw [h]
  rfl

theorem setIntOverride_of_pair (c : Config) (a key text : Str)
    (h : parseAssignment a = ([key, text], none)) :
    setIntOverride c a =
      match Atoi text with
      | .error err => goPanic err
      | .ok value => pure { c with Additional := c.Additional.SetInt key value } := by
  unfold setIntOverride
  rw [h]
  rfl

theorem setStringOverride_of_error (c : Config) (a : Str) (e : Error)
    (h : (parseAssignment a).2 = some e) : (setStringOverride c a).val = .error e := by
  unfold setStringOverride
  split
  · rename_i kv err heq
    rw [heq] at h
    cases h
    rfl
  · rename_i kv heq
    rw [heq] at h
    cases h

theorem setIntOverride_of_error (c : Config) (a : Str) (e : Error)
    (h : (parseAssignment a).2 = some e) : (setIntOverride c a).val = .error e := by
  unfold setIntOverride
  split
  · rename_i kv err heq
    rw [heq] at h
    cases h
    rfl
  · rename_i kv heq
    rw [heq] at h
    cases h

/-- A string override that returns was accepted by `parseAssignment` and was stored. -/
theorem setStringOverride_ok (c c' : Config) (a : Str) (h : (setStringOverride c a).val = .ok c') :
    ∃ key value, parseAssignment a = ([key, value], none) ∧
      c' = { c with Additional := c.Additional.SetString key value } := by
  cases hp : (parseAssignment a).2 with
  | some e =>
    rw [setStringOverride_of_error c a e hp] at h
    cases h
  | none =>
    obtain ⟨k, v, _, hkv⟩ := parseAssignment_ok_pair a hp
    rw [setStringOverride_of_pair c a k v hkv] at h
    cases h
    exact ⟨k, v, hkv, rfl⟩

/-- An integer override that returns was accepted by `parseAssignment`, its value was accepted
by `Atoi`, and the integer was stored. -/
theorem setIntOverride_ok (c c' : Config) (a : Str) (h : (setIntOverride c a).val = .ok c') :
    ∃ key text n, parseAssignment a = ([key, text], none) ∧ Atoi text = .ok n ∧
      c' = { c with Additional := c.Additional.SetInt key n } := by
  cases hp : (parseAssignment a).2 with
  | some e =>
    rw [setIntOverride_of_error c a e hp] at h
    cases h
  | none =>
    obtain ⟨k, v, _, hkv⟩ := parseAssignment_ok_pair a hp
    rw [setIntOverride_of_pair c a k v hkv] at h
    cases hn : Atoi v with
    | error e =>
      rw [hn] at h
      cases h
    | ok n =>
      rw [hn] at h
      cases h
      exact ⟨k, v, n, hkv, hn, rfl⟩

/-- The value of `config`: load, override the types, then fold the two lists of overrides. -/
theorem config_val_ok (env : Env) (ctx : Context) (cfg : Config)
    (h : (config env ctx).val = .ok cfg) :
    ∃ file c1, (loadConfig env ctx).val = .ok file ∧
      ((ctx.GlobalStringSlice "config-string".toList).foldlM setStringOverride
        (applyTypeOverrides ctx file)).val = .ok c1 ∧
      ((ctx.GlobalStringSlice "config-int".toList).foldlM setIntOverride c1).val = .ok cfg := by
  unfold config at h
  cases h0 : (loadConfig env ctx).val with
  | error e =>
    rw [bind_error _ _ e h0] at h
    cases h
  | ok file =>
    rw [bind_ok _ _ file h0] at h
    simp only at h
    cases h1 : ((ctx.GlobalStringSlice "config-string".toList).foldlM setStringOverride
        (applyTypeOverrides ctx file)).val with
    | error e =>
      rw [bind_error _ _ e h1] at h
      cases h
    | ok c1 =>
      rw [bind_ok _ _ c1 h1] at h
      simp only at h
      cases h2 : ((ctx.GlobalStringSlice "config-int".toList).foldlM setIntOverride c1).val with
      | error e =>
        rw [bind_error _ _ e h2] at h
        cases h
      | ok c2 =>
        rw [bind_ok _ _ c2 h2] at h
        simp only [pure_val] at h
        cases h
        exact ⟨file, c1, rfl, h1, h2⟩

theorem config_val_of (env : Env) (ctx : Context) (file c1 cfg : Config)
    (h0 : (loadConfig env ctx).val = .ok file)
    (h1 : ((ctx.GlobalStringSlice "config-string".toList).foldlM setStringOverride
        (applyTypeOverrides ctx file)).val = .ok c1)
    (h2 : ((ctx.GlobalStringSlice "config-int".toList).foldlM setIntOverride c1).val = .ok cfg) :
    (config env ctx).val = .ok cfg := by
  unfold config
  rw [bind_ok _ _ file h0]
  simp only
  rw [bind_ok _ _ c1 h1]
  simp only
  rw [bind_ok _ _ cfg h2]
  rfl

theorem config_trace (env : Env) (ctx : Context) :
    (config env ctx).trace = (loadConfig env ctx).trace := by
  unfold config
  cases h0 : (loadConfig env ctx).val with
  | error e => rw [bind_error _ _ e h0]
  | ok file =>
    rw [bind_ok _ _ file h0]
    simp only
    have t1 := foldlM_trace setStringOverride setStringOverride_trace
      (ctx.GlobalStringSlice "config-string".toList) (applyTypeOverrides ctx file)
    cases h1 : ((ctx.GlobalStringSlice "config-string".toList).foldlM setStringOverride
        (applyTypeOverrides ctx file)).val with
    | error e => rw [bind_error _ _ e h1, t1]; simp
    | ok c1 =>
      rw [bind_ok _ _ c1 h1, t1]
      have t2 := foldlM_trace setIntOverride setIntOverride_trace
        (ctx.GlobalStringSlice "config-int".toList) c1
      cases h2 : ((ctx.GlobalStringSlice "config-int".toList).foldlM setIntOverride c1).val with
      | error e => rw [bind_error _ _ e h2, t2]; simp
      | ok c2 => rw [bind_ok _ _ c2 h2, t2]; simp

theorem overrideKey_of_pair (a key value : Str) (h : parseAssignment a = ([key, value], none)) :
    overrideKey a = some key := by
  unfold overrideKey
  rw [h]
  rfl

/-- The three selector fields after the type overrides. -/
theorem applyTypeOverrides_fields (ctx : Context) (c : Config) :
    (applyTypeOverrides ctx c).SchemeType
        = (if ctx.GlobalString "scheme".toList ≠ [] then ctx.GlobalString "scheme".toList
            else c.SchemeType) ∧
      (applyTypeOverrides ctx c).WriterType
        = (if ctx.GlobalString "writer".toList ≠ [] then ctx.GlobalString "writer".toList
            else c.WriterType) ∧
      (applyTypeOverrides ctx c).ReaderType
        = (if ctx.GlobalString "reader".toList ≠ [] then ctx.GlobalString "reader".toList
            else c.ReaderType) ∧
      (applyTypeOverrides ctx c).Additional = c.Additional := by
  unfold applyTypeOverrides
  generalize ctx.GlobalString "scheme".toList = s1
  generalize ctx.GlobalString "writer".toList = s2
  generalize ctx.GlobalString "reader".toList = s3
  by_cases h1 : s1 = [] <;> by_cases h2 : s2 = [] <;> by_cases h3 : s3 = [] <;>
    simp [h1, h2, h3]

/-- The override loops leave the three selector fields alone. -/
theorem overrides_keep_selectors (env : Env) (ctx : Context) (cfg : Config)
    (h : (config env ctx).val = .ok cfg) :
    ∃ file, (loadConfig env ctx).val = .ok file ∧
      cfg.SchemeType = (applyTypeOverrides ctx file).SchemeType ∧
      cfg.WriterType = (applyTypeOverrides ctx file).WriterType ∧
      cfg.ReaderType = (applyTypeOverrides ctx file).ReaderType := by
  obtain ⟨file, c1, h0, h1, h2⟩ := config_val_ok env ctx cfg h
  refine ⟨file, h0, ?_⟩
  have p1 := foldlM_val_invariant setStringOverride
    (fun c => c.SchemeType = (applyTypeOverrides ctx file).SchemeType ∧
      c.WriterType = (applyTypeOverrides ctx file).WriterType ∧
      c.ReaderType = (applyTypeOverrides ctx file).ReaderType) _
    (fun c a c' _ hs hc => by
      obtain ⟨k, v, _, rfl⟩ := setStringOverride_ok c c' a hs
      exact hc) _ _ h1 ⟨rfl, rfl, rfl⟩
  exact foldlM_val_invariant setIntOverride
    (fun c => c.SchemeType = (applyTypeOverrides ctx file).SchemeType ∧
      c.WriterType = (applyTypeOverrides ctx file).WriterType ∧
      c.ReaderType = (applyTypeOverrides ctx file).ReaderType) _
    (fun c a c' _ hs hc => by
      obtain ⟨k, v, n, _, _, rfl⟩ := setIntOverride_ok c c' a hs
      exact hc) _ _ h2 p1

/-- String overrides none of which names `k` leave the value of `k` alone. -/
theorem strings_keep_other_keys (k : Str) (as : List Str) (c r : Config)
    (h : (as.foldlM setStringOverride c).val = .ok r)
    (hk : ∀ b ∈ as, overrideKey b ≠ some k) : r.Additional.get k = c.Additional.get k :=
  foldlM_val_invariant setStringOverride (fun c' => c'.Additional.get k = c.Additional.get k) as
    (fun c0 a c' hm hs hc => by
      obtain ⟨key, v, hp, rfl⟩ := setStringOverride_ok c0 c' a hs
      have hne : k ≠ key := fun e => hk a hm (by rw [overrideKey_of_pair a key v hp, e])
      show (c0.Additional.SetString key v).get k = _
      rw [get_SetString_ne _ _ _ _ hne]
      exact hc) c r h rfl

/-- Integer overrides none of which names `k` leave the value of `k` alone. -/
theorem ints_keep_other_keys (k : Str) (as : List Str) (c r : Config)
    (h : (as.foldlM setIntOverride c).val = .ok r)
    (hk : ∀ b ∈ as, overrideKey b ≠ some k) : r.Additional.get k = c.Additional.get k :=
  foldlM_val_invariant setIntOverride (fun c' => c'.Additional.get k = c.Additional.get k) as
    (fun c0 a c' hm hs hc => by
      obtain ⟨key, v, n, hp, _, rfl⟩ := setIntOverride_ok c0 c' a hs
      have hne : k ≠ key := fun e => hk a hm (by rw [overrideKey_of_pair a key v hp, e])
      show (c0.Additional.SetInt key n).get k = _
      rw [get_SetInt_ne _ _ _ _ hne]
      exact hc) c r h rfl

/-- `config` returns whenever the load succeeds, every override has exactly one `=`, and the
value of every integer override is accepted by `Atoi`. -/
theorem config_returns (env : Env) (ctx : Context) (file : Config)
    (hload : (loadConfig env ctx).val = .ok file)
    (hs : ∀ a ∈ ctx.GlobalStringSlice "config-string".toList, (parseAssignment a).2 = none)
    (hi : ∀ a ∈ ctx.GlobalStringSlice "config-int".toList,
      ∃ key text n, parseAssignment a = ([key, text], none) ∧ Atoi text = .ok n) :
    ∃ cfg, (config env ctx).val = .ok cfg := by
  have fs : ∀ (as : List Str) (c : Config), (∀ a ∈ as, (parseAssignment a).2 = none) →
      ∃ r, (as.foldlM setStringOverride c).val = .ok r := by
    intro as
    induction as with
    | nil => exact fun c _ => ⟨c, rfl⟩
    | cons a as ih =>
      intro c hall
      obtain ⟨k, v, _, hkv⟩ := parseAssignment_ok_pair a (hall a (List.mem_cons_self _ _))
      have hstep : (setStringOverride c a).val
          = .ok { c with Additional := c.Additional.SetString k v } := by
        rw [setStringOverride_of_pair c a k v hkv]
        rfl
      obtain ⟨r, hr⟩ := ih { c with Additional := c.Additional.SetString k v }
        (fun b hb => hall b (List.mem_cons_of_mem _ hb))
      exact ⟨r, by rw [foldlM_val_cons_ok _ a as c _ hstep]; exact hr⟩
  have fi : ∀ (as : List Str) (c : Config),
      (∀ a ∈ as, ∃ key text n, parseAssignment a = ([key, text], none) ∧ Atoi text = .ok n) →
      ∃ r, (as.foldlM setIntOverride c).val = .ok r := by
    intro as
    induction as with
    | nil => exact fun c _ => ⟨c, rfl⟩
    | cons a as ih =>
      intro c hall
      obtain ⟨k, v, n, hkv, hn⟩ := hall a (List.mem_cons_self _ _)
      have hstep : (setIntOverride c a).val
          = .ok { c with Additional := c.Additional.SetInt k n } := by
        rw [setIntOverride_of_pair c a k v hkv, hn]
        rfl
      obtain ⟨r, hr⟩ := ih { c with Additional := c.Additional.SetInt k n }
        (fun b hb => hall b (List.mem_cons_of_mem _ hb))
      exact ⟨r, by rw [foldlM_val_cons_ok _ a as c _ hstep]; exact hr⟩
  obtain ⟨c1, h1⟩ := fs _ (applyTypeOverrides ctx file) hs
  obtain ⟨c2, h2⟩ := fi _ c1 hi
  exact ⟨c2, config_val_of env ctx file c1 c2 hload h1 h2⟩

/-! ## The type overrides -/

/-- C2: whatever types the loaded configuration sets, a scheme override that is given (a
non-empty `--scheme` value) is the `SchemeType` of the configuration `config` returns; the same
holds for the writer override and `WriterType`, and for the reader override and
`ReaderType`. -/
theorem config_type_override_wins (env : Env) (ctx : Context) (file cfg : Config)
    (hload : (loadConfig env ctx).val = .ok file) (h : (config env ctx).val = .ok cfg) :
    (ctx.GlobalString "scheme".toList ≠ [] → cfg.SchemeType = ctx.GlobalString "scheme".toList) ∧
    (ctx.GlobalString "writer".toList ≠ [] → cfg.WriterType = ctx.GlobalString "writer".toList) ∧
    (ctx.GlobalString "reader".toList ≠ [] → cfg.ReaderType = ctx.GlobalString "reader".toList) := by
  obtain ⟨file', hl, e1, e2, e3⟩ := overrides_keep_selectors env ctx cfg h
  rw [hload] at hl
  cases hl
  obtain ⟨f1, f2, f3, _⟩ := applyTypeOverrides_fields ctx file
  refine ⟨fun hne => ?_, fun hne => ?_, fun hne => ?_⟩
  · rw [e1, f1, if_pos hne]
  · rw [e2, f2, if_pos hne]
  · rw [e3, f3, if_pos hne]

/-- The file sets the scheme `simple` and the transports `udp`; with the overrides `streaming`
and `sse` the configuration returned holds `streaming` and `sse`. -/
theorem config_type_override_wins_witness :
    fileConfig.SchemeType = "simple".toList ∧
    ∃ cfg, (config sampleEnv overrideTypes).val = .ok cfg ∧
      cfg.SchemeType = "streaming".toList ∧ cfg.WriterType = "sse".toList ∧
      cfg.ReaderType = "sse".toList :=
  ⟨rfl, _, rfl,
    (config_type_override_wins sampleEnv overrideTypes fileConfig _ rfl rfl).1 (by decide),
    (config_type_override_wins sampleEnv overrideTypes fileConfig _ rfl rfl).2.1 (by decide),
    (config_type_override_wins sampleEnv overrideTypes fileConfig _ rfl rfl).2.2 (by decide)⟩

/-- C9: the type-override step changes a selector field only when its override is non-empty:
with an empty override the field keeps the loaded value, in the step and in the configuration
`config` returns, and the step never changes the additional settings. -/
theorem type_override_frame (env : Env) (ctx : Context) (c : Config) :
    (ctx.GlobalString "scheme".toList = [] →
      (applyTypeOverrides ctx c).SchemeType = c.SchemeType) ∧
    (ctx.GlobalString "writer".toList = [] →
      (applyTypeOverrides ctx c).WriterType = c.WriterType) ∧
    (ctx.GlobalString "reader".toList = [] →
      (applyTypeOverrides ctx c).ReaderType = c.ReaderType) ∧
    (applyTypeOverrides ctx c).Additional = c.Additional ∧
    (∀ cfg, (loadConfig env ctx).val = .ok c → (config env ctx).val = .ok cfg →
      (ctx.GlobalString "scheme".toList = [] → cfg.SchemeType = c.SchemeType) ∧
      (ctx.GlobalString "writer".toList = [] → cfg.WriterType = c.WriterType) ∧
      (ctx.GlobalString "reader".toList = [] → cfg.ReaderType = c.ReaderType)) := by
  obtain ⟨f1, f2, f3, f4⟩ := applyTypeOverrides_fields ctx c
  refine ⟨fun he => ?_, fun he => ?_, fun he => ?_, f4, ?_⟩
  · rw [f1, if_neg (not_not.mpr he)]
  · rw [f2, if_neg (not_not.mpr he)]
  · rw [f3, if_neg (not_not.mpr he)]
  · intro cfg hload h
    obtain ⟨file', hl, e1, e2, e3⟩ := overrides_keep_selectors env ctx cfg h
    rw [hload] at hl
    cases hl
    refine ⟨fun he => ?_, fun he => ?_, fun he => ?_⟩
    · rw [e1, f1, if_neg (not_not.mpr he)]
    · rw [e2, f2, if_neg (not_not.mpr he)]
    · rw [e3, f3, if_neg (not_not.mpr he)]

/-- With only a writer override given, the scheme and reader types stay those of the file, and
the additional settings are untouched by the step. -/
theorem type_override_frame_witness :
    (applyTypeOverrides unknownWriter fileConfig).SchemeType = "simple".toList ∧
    (applyTypeOverrides unknownWriter fileConfig).ReaderType = "udp".toList ∧
    (applyTypeOverrides unknownWriter fileConfig).WriterType = "nosuch".toList ∧
    (applyTypeOverrides unknownWriter fileConfig).Additional = fileConfig.Additional :=
  ⟨(type_override_frame sampleEnv unknownWriter fileConfig).1 (by decide),
    (type_override_frame sampleEnv unknownWriter fileConfig).2.2.1 (by decide),
    by decide,
    (type_override_frame sampleEnv unknownWriter fileConfig).2.2.2.1⟩

/-! ## The key=value overrides -/

/-- C3: for every integer override `key=value` of `--config-int` that `parseAssignment`
accepts, `config` panics when `Atoi` refuses `value`; when `Atoi` accepts it the loop body
stores exactly the parsed integer under `key`, and a `config` that returns went through a
configuration holding that integer under `key` before it applied the remaining overrides. -/
theorem config_int_override (env : Env) (ctx : Context) (a key text : Str)
    (hmem : a ∈ ctx.GlobalStringSlice "config-int".toList)
    (hwf : parseAssignment a = ([key, text], none)) :
    (∀ e, Atoi text = .error e → ∃ e', (config env ctx).val = .error e') ∧
    (∀ n, Atoi text = .ok n →
      (∀ c, setIntOverride c a = pure { c with Additional := c.Additional.SetInt key n } ∧
        (c.Additional.SetInt key n).get key = some (Value.Int n)) ∧
      (∀ pre post cfg, ctx.GlobalStringSlice "config-int".toList = pre ++ a :: post →
        (config env ctx).val = .ok cfg →
        ∃ c : Config, (c.Additional.SetInt key n).get key = some (Value.Int n) ∧
          (post.foldlM setIntOverride { c with Additional := c.Additional.SetInt key n }).val
            = .ok cfg)) := by
  constructor
  · intro e he
    cases h : (config env ctx).val with
    | error e' => exact ⟨e', rfl⟩
    | ok cfg =>
      obtain ⟨file, c1, _, _, h2⟩ := config_val_ok env ctx cfg h
      obtain ⟨e', he'⟩ := foldlM_val_error_of_mem setIntOverride _ a hmem
        (fun c => ⟨e, by rw [setIntOverride_of_pair c a key text hwf, he]; rfl⟩) c1
      rw [h2] at he'
      cases he'
  · intro n hn
    have hstep : ∀ c, setIntOverride c a
        = pure { c with Additional := c.Additional.SetInt key n } := by
      intro c
      rw [setIntOverride_of_pair c a key text hwf, hn]
    refine ⟨fun c => ⟨hstep c, get_SetInt_self _ _ _⟩, ?_⟩
    intro pre post cfg hsplit h
    obtain ⟨file, c1, _, _, h2⟩ := config_val_ok env ctx cfg h
    rw [hsplit] at h2
    obtain ⟨c, _, hpost⟩ := foldlM_val_append_ok setIntOverride pre (a :: post) c1 cfg h2
    rw [foldlM_val_cons_ok setIntOverride a post c _ (by rw [hstep c]; rfl)] at hpost
    exact ⟨c, get_SetInt_self _ _ _, hpost⟩

/-- The override `count=bad` makes `config` panic, and `count=10` stores the integer 10 under
`count`, in place of the 5 of the file. -/
theorem config_int_override_witness :
    (∃ e, (config sampleEnv countBad).val = .error e) ∧
    fileConfig.Additional.get "count".toList = some (Value.Int 5) ∧
    (config sampleEnv countTen).val
      = .ok { fileConfig with Additional := ⟨[("count".toList, Value.Int 10)]⟩ } ∧
    ∃ c : Config, (c.Additional.SetInt "count".toList 10).get "count".toList
        = some (Value.Int 10) ∧
      (([] : List Str).foldlM setIntOverride
          { c with Additional := c.Additional.SetInt "count".toList 10 }).val
        = .ok { fileConfig with Additional := ⟨[("count".toList, Value.Int 10)]⟩ } :=
  ⟨(config_int_override sampleEnv countBad "count=bad".toList "count".toList "bad".toList
      (by decide) (by decide)).1 (Error.NumError fnAtoi "bad".toList NumErr.ErrSyntax)
      (by decide),
    by decide, by decide,
    ((config_int_override sampleEnv countTen "count=10".toList "count".toList "10".toList
      (by decide) (by decide)).2 10 (by decide)).2 [] []
      { fileConfig with Additional := ⟨[("count".toList, Value.Int 10)]⟩ }
      (by decide) (by decide)⟩

/-- C4, as the code has it: an override `key=value` that `parseAssignment` accepts and that is
the last override for `key` in the order `config` applies them (every `--config-string` value in
the order written, then every `--config-int` value in the order written) decides the value of
`key` in the configuration `config` returns, whatever the file or the defaults held: the string
`value` for a string override that no later string override and no integer override names, the
parsed integer for an integer override that no later integer override names. -/
theorem config_last_applied_override_wins (env : Env) (ctx : Context) (cfg : Config)
    (h : (config env ctx).val = .ok cfg) :
    (∀ pre a post key value,
      ctx.GlobalStringSlice "config-string".toList = pre ++ a :: post →
      parseAssignment a = ([key, value], none) →
      (∀ b ∈ post, overrideKey b ≠ some key) →
      (∀ b ∈ ctx.GlobalStringSlice "config-int".toList, overrideKey b ≠ some key) →
      cfg.Additional.get key = some (Value.String value)) ∧
    (∀ pre a post key text n,
      ctx.GlobalStringSlice "config-int".toList = pre ++ a :: post →
      parseAssignment a = ([key, text], none) →
      Atoi text = .ok n →
      (∀ b ∈ post, overrideKey b ≠ some key) →
      cfg.Additional.get key = some (Value.Int n)) := by
  obtain ⟨file, c1, _, h1, h2⟩ := config_val_ok env ctx cfg h
  constructor
  · intro pre a post key value hsplit hwf hpost hints
    rw [hsplit] at h1
    obtain ⟨c, _, hrest⟩ := foldlM_val_append_ok setStringOverride pre (a :: post) _ c1 h1
    rw [foldlM_val_cons_ok setStringOverride a post c
      { c with Additional := c.Additional.SetString key value }
      (by rw [setStringOverride_of_pair c a key value hwf]; rfl)] at hrest
    rw [ints_keep_other_keys key _ c1 cfg h2 hints,
      strings_keep_other_keys key post _ c1 hrest hpost]
    exact get_SetString_self _ _ _
  · intro pre a post key text n hsplit hwf hn hpost
    rw [hsplit] at h2
    obtain ⟨c, _, hrest⟩ := foldlM_val_append_ok setIntOverride pre (a :: post) c1 cfg h2
    rw [foldlM_val_cons_ok setIntOverride a post c
      { c with Additional := c.Additional.SetInt key n }
      (by rw [setIntOverride_of_pair c a key text hwf, hn]; rfl)] at hrest
    rw [ints_keep_other_keys key post _ cfg hrest hpost]
    exact get_SetInt_self _ _ _

/-- The file holds the integer 5 under `count`; the override `count=10` of `--config-int`, the
last override applied for `count`, makes the configuration returned hold 10. -/
theorem config_last_applied_override_wins_witness :
    fileConfig.Additional.get "count".toList = some (Value.Int 5) ∧
    (config sampleEnv countTen).val
      = .ok { fileConfig with Additional := ⟨[("count".toList, Value.Int 10)]⟩ } ∧
    ({ fileConfig with Additional := ⟨[("count".toList, Value.Int 10)]⟩ } : Config).Additional.get
        "count".toList = some (Value.Int 10) :=
  ⟨by decide, by decide,
    (config_last_applied_override_wins sampleEnv countTen
      { fileConfig with Additional := ⟨[("count".toList, Value.Int 10)]⟩ } (by decide)).2
      [] "count=10".toList [] "count".toList "10".toList 10 (by decide) (by decide) (by decide)
      (by simp)⟩

/-- C4 fails as stated: on the command line `--config-int k=1 --config-string k=x` the override
given last for the key `k` is the string override `k=x`, which `parseAssignment` accepts, yet
the configuration `config` returns maps `k` to the integer 1 and not to the string `x`. -/
theorem config_last_given_override_loses :
    intThenString.GlobalStringSlice "config-string".toList = ["k=x".toList] ∧
    intThenString.GlobalStringSlice "config-int".toList = ["k=1".toList] ∧
    parseAssignment "k=x".toList = (["k".toList, "x".toList], none) ∧
    ∃ cfg, (config sampleEnv intThenString).val = .ok cfg ∧
      cfg.Additional.get "k".toList = some (Value.Int 1) ∧
      cfg.Additional.get "k".toList ≠ some (Value.String "x".toList) :=
  ⟨by decide, by decide, by decide,
    { emptyConfig with Additional := ⟨[("k".toList, Value.Int 1)]⟩ }, by decide, by decide,
    by decide⟩

/-! ## `write` and `read` -/

/-- The run of `write` once `config` has returned, by the outcome of each later step. -/
theorem write_eq (env : Env) (ctx : Context) (cfg : Config)
    (h : (config env ctx).val = .ok cfg) :
    write env ctx =
      match env.CreateScheme cfg.SchemeType with
      | .error e =>
        ⟨(initLogs env ctx).trace ++ (config env ctx).trace ++
          [Event.CreateScheme cfg.SchemeType, Event.ShowAppHelp], .error e⟩
      | .ok s =>
        match s.Init cfg.Additional with
        | some e =>
          ⟨(initLogs env ctx).trace ++ (config env ctx).trace ++
            [Event.CreateScheme cfg.SchemeType,
              Event.SchemeInit cfg.SchemeType cfg.Additional], .error e⟩
        | none =>
          match env.CreateWriter cfg.WriterType with
          | .error e =>
            ⟨(initLogs env ctx).trace ++ (config env ctx).trace ++
              [Event.CreateScheme cfg.SchemeType,
                Event.SchemeInit cfg.SchemeType cfg.Additional,
                Event.CreateWriter cfg.WriterType], .error e⟩
          | .ok w =>
            match w.Init cfg.Additional with
            | some e =>
              ⟨(initLogs env ctx).trace ++ (config env ctx).trace ++
                [Event.CreateScheme cfg.SchemeType,
                  Event.SchemeInit cfg.SchemeType cfg.Additional,
                  Event.CreateWriter cfg.WriterType,
                  Event.WriterInit cfg.WriterType cfg.Additional,
                  Event.ShowAppHelp], .error e⟩
            | none =>
              ⟨(initLogs env ctx).trace ++ (config env ctx).trace ++
                [Event.CreateScheme cfg.SchemeType,
                  Event.SchemeInit cfg.SchemeType cfg.Additional,
                  Event.CreateWriter cfg.WriterType,
                  Event.WriterInit cfg.WriterType cfg.Additional,
                  Event.RunWriter cfg.SchemeType cfg.WriterType] ++
                (s.RunWriter w).map Event.Traffic, .ok ()⟩ := by
  unfold write
  rw [bind_ok (initLogs env ctx) _ () rfl, bind_ok (config env ctx) _ cfg h]
  unfold scheme
  cases h1 : env.CreateScheme cfg.SchemeType with
  | error e => simp [goPanic]
  | ok s =>
    cases h2 : s.Init cfg.Additional with
    | some e => simp [goPanic, h2]
    | none =>
      cases h3 : env.CreateWriter cfg.WriterType with
      | error e => simp [goPanic, h2]
      | ok w =>
        cases h4 : w.Init cfg.Additional with
        | some e => simp [goPanic, h2, h4]
        | none => simp [goPanic, h2, h4, traffic]

/-- The run of `read` once `config` has returned, by the outcome of each later step. -/
theorem read_eq (env : Env) (ctx : Context) (cfg : Config)
    (h : (config env ctx).val = .ok cfg) :
    read env ctx =
      match env.CreateScheme cfg.SchemeType with
      | .error e =>
        ⟨(initLogs env ctx).trace ++ (config env ctx).trace ++
          [Event.CreateScheme cfg.SchemeType, Event.ShowAppHelp], .error e⟩
      | .ok s =>
        match s.Init cfg.Additional with
        | some e =>
          ⟨(initLogs env ctx).trace ++ (config env ctx).trace ++
            [Event.CreateScheme cfg.SchemeType,
              Event.SchemeInit cfg.SchemeType cfg.Additional], .error e⟩
        | none =>
          match env.CreateReader cfg.ReaderType with
          | .error e =>
            ⟨(initLogs env ctx).trace ++ (config env ctx).trace ++
              [Event.CreateScheme cfg.SchemeType,
                Event.SchemeInit cfg.SchemeType cfg.Additional,
                Event.CreateReader cfg.ReaderType,
                Event.ShowAppHelp], .error e⟩
          | .ok r =>
            match r.Init cfg.Additional with
            | some e =>
              ⟨(initLogs env ctx).trace ++ (config env ctx).trace ++
                [Event.CreateScheme cfg.SchemeType,
                  Event.SchemeInit cfg.SchemeType cfg.Additional,
                  Event.CreateReader cfg.ReaderType,
                  Event.ReaderInit cfg.ReaderType cfg.Additional], .error e⟩
            | none =>
              ⟨(initLogs env ctx).trace ++ (config env ctx).trace ++
                [Event.CreateScheme cfg.SchemeType,
                  Event.SchemeInit cfg.SchemeType cfg.Additional,
                  Event.CreateReader cfg.ReaderType,
                  Event.ReaderInit cfg.ReaderType cfg.Additional,
                  Event.RunReader cfg.SchemeType cfg.ReaderType] ++
                (s.RunReader r).map Event.Traffic, .ok ()⟩ := by
  unfold read
  rw [bind_ok (initLogs env ctx) _ () rfl, bind_ok (config env ctx) _ cfg h]
  unfold scheme
  cases h1 : env.CreateScheme cfg.SchemeType with
  | error e => simp [goPanic]
  | ok s =>
    cases h2 : s.Init cfg.Additional with
    | some e => simp [goPanic, h2]
    | none =>
      cases h3 : env.CreateReader cfg.ReaderType with
      | error e => simp [goPanic, h2]
      | ok r =>
        cases h4 : r.Init cfg.Additional with
        | some e => simp [goPanic, h2, h4]
        | none => simp [goPanic, h2, h4, traffic]

theorem write_config_error (env : Env) (ctx : Context) (e : Error)
    (h : (config env ctx).val = .error e) :
    write env ctx = ⟨(initLogs env ctx).trace ++ (config env ctx).trace, .error e⟩ := by
  unfold write
  rw [bind_ok (initLogs env ctx) _ () rfl, bind_error (config env ctx) _ e h]

theorem read_config_error (env : Env) (ctx : Context) (e : Error)
    (h : (config env ctx).val = .error e) :
    read env ctx = ⟨(initLogs env ctx).trace ++ (config env ctx).trace, .error e⟩ := by
  unfold read
  rw [bind_ok (initLogs env ctx) _ () rfl, bind_error (config env ctx) _ e h]

/-- Before the scheme is created nothing runs and nothing is sent or received. -/
theorem startup_noTraffic (env : Env) (ctx : Context) :
    noTraffic ((initLogs env ctx).trace ++ (config env ctx).trace) := by
  have h := loadConfig_noTraffic env ctx
  rw [config_trace]
  unfold noTraffic at h ⊢
  obtain ⟨h1, h2, h3⟩ := h
  refine ⟨fun s w hm => ?_, fun s r hm => ?_, fun t hm => ?_⟩
  · rcases List.mem_append.mp hm with hm | hm
    · simp [initLogs, emit] at hm
    · exact h1 s w hm
  · rcases List.mem_append.mp hm with hm | hm
    · simp [initLogs, emit] at hm
    · exact h2 s r hm
  · rcases List.mem_append.mp hm with hm | hm
    · simp [initLogs, emit] at hm
    · exact h3 t hm

/-- Extending a quiet trace by events that are not runs or traffic keeps it quiet. -/
theorem noTraffic_append (t u : List Event) (ht : noTraffic t)
    (hu : ∀ ev ∈ u, ev.isRunWriter = false ∧ ev.isRunReader = false ∧ ∀ x, ev ≠ Event.Traffic x) :
    noTraffic (t ++ u) := by
  obtain ⟨h1, h2, h3⟩ := ht
  refine ⟨fun s w hm => ?_, fun s r hm => ?_, fun x hm => ?_⟩
  · rcases List.mem_append.mp hm with hm | hm
    · exact h1 s w hm
    · have := (hu _ hm).1
      simp [Event.isRunWriter] at this
  · rcases List.mem_append.mp hm with hm | hm
    · exact h2 s r hm
    · have := (hu _ hm).2.1
      simp [Event.isRunReader] at this
  · rcases List.mem_append.mp hm with hm | hm
    · exact h3 x hm
    · exact (hu _ hm).2.2 x rfl

theorem countP_run_of_noTraffic (t : List Event) (h : noTraffic t) :
    t.countP Event.isRunWriter = 0 ∧ t.countP Event.isRunReader = 0 := by
  obtain ⟨h1, h2, _⟩ := h
  constructor
  · rw [List.countP_eq_zero]
    intro ev hm hp
    cases ev <;> simp [Event.isRunWriter] at hp
    exact h1 _ _ hm
  · rw [List.countP_eq_zero]
    intro ev hm hp
    cases ev <;> simp [Event.isRunReader] at hp
    exact h2 _ _ hm

theorem countP_run_traffic (ts : List Traffic) :
    (ts.map Event.Traffic).countP Event.isRunWriter = 0 ∧
      (ts.map Event.Traffic).countP Event.isRunReader = 0 := by
  constructor
  · rw [List.countP_eq_zero]
    intro ev hm
    obtain ⟨t, _, rfl⟩ := List.mem_map.mp hm
    simp [Event.isRunWriter]
  · rw [List.countP_eq_zero]
    intro ev hm
    obtain ⟨t, _, rfl⟩ := List.mem_map.mp hm
    simp [Event.isRunReader]

/-! ## Startup failures -/

/-- C6: when a startup step of `write` fails (building the configuration, creating the scheme,
the scheme's `Init`, creating the writer, the writer's `Init`) the run panics, `RunWriter` and
`RunReader` are never called and no call is made on a transport; the same holds for `read` with
the reader in place of the writer. -/
theorem startup_failure_before_traffic (env : Env) (ctx : Context) :
    (writeStartupFails env ctx →
      (∃ e, (write env ctx).val = .error e) ∧ noTraffic (write env ctx).trace) ∧
    (readStartupFails env ctx →
      (∃ e, (read env ctx).val = .error e) ∧ noTraffic (read env ctx).trace) := by
  have hq := startup_noTraffic env ctx
  constructor
  · rintro (⟨e, he⟩ | ⟨cfg, hc, hrest⟩)
    · rw [write_config_error env ctx e he]
      exact ⟨⟨e, rfl⟩, hq⟩
    · rw [write_eq env ctx cfg hc]
      cases h1 : env.CreateScheme cfg.SchemeType with
      | error e =>
        exact ⟨⟨e, rfl⟩, noTraffic_append _ _ hq (by simp [Event.isRunWriter, Event.isRunReader])⟩
      | ok s =>
        dsimp only
        cases h2 : s.Init cfg.Additional with
        | some e =>
          exact ⟨⟨e, rfl⟩,
            noTraffic_append _ _ hq (by simp [Event.isRunWriter, Event.isRunReader])⟩
        | none =>
          dsimp only
          cases h3 : env.CreateWriter cfg.WriterType with
          | error e =>
            exact ⟨⟨e, rfl⟩,
              noTraffic_append _ _ hq (by simp [Event.isRunWriter, Event.isRunReader])⟩
          | ok w =>
            dsimp only
            cases h4 : w.Init cfg.Additional with
            | some e =>
              exact ⟨⟨e, rfl⟩,
                noTraffic_append _ _ hq (by simp [Event.isRunWriter, Event.isRunReader])⟩
            | none =>
              exfalso
              rcases hrest with ⟨e, h⟩ | ⟨s', e, h, h'⟩ | ⟨e, h⟩ | ⟨w', e, h, h'⟩
              · rw [h1] at h; cases h
              · rw [h1] at h; cases h; rw [h2] at h'; cases h'
              · rw [h3] at h; cases h
              · rw [h3] at h; cases h; rw [h4] at h'; cases h'
  · rintro (⟨e, he⟩ | ⟨cfg, hc, hrest⟩)
    · rw [read_config_error env ctx e he]
      exact ⟨⟨e, rfl⟩, hq⟩
    · rw [read_eq env ctx cfg hc]
      cases h1 : env.CreateScheme cfg.SchemeType with
      | error e =>
        exact ⟨⟨e, rfl⟩, noTraffic_append _ _ hq (by simp [Event.isRunWriter, Event.isRunReader])⟩
      | ok s =>
        dsimp only
        cases h2 : s.Init cfg.Additional with
        | some e =>
          exact ⟨⟨e, rfl⟩,
            noTraffic_append _ _ hq (by simp [Event.isRunWriter, Event.isRunReader])⟩
        | none =>
          dsimp only
          cases h3 : env.CreateReader cfg.ReaderType with
          | error e =>
            exact ⟨⟨e, rfl⟩,
              noTraffic_append _ _ hq (by simp [Event.isRunWriter, Event.isRunReader])⟩
          | ok r =>
            dsimp only
            cases h4 : r.Init cfg.Additional with
            | some e =>
              exact ⟨⟨e, rfl⟩,
                noTraffic_append _ _ hq (by simp [Event.isRunWriter, Event.isRunReader])⟩
            | none =>
              exfalso
              rcases hrest with ⟨e, h⟩ | ⟨s', e, h, h'⟩ | ⟨e, h⟩ | ⟨r', e, h, h'⟩
              · rw [h1] at h; cases h
              · rw [h1] at h; cases h; rw [h2] at h'; cases h'
              · rw [h3] at h; cases h
              · rw [h3] at h; cases h; rw [h4] at h'; cases h'

/-- A `write` whose writer fails in `Init` and a `read` whose configuration cannot be built
(the override `count=bad`) panic without a run and without traffic. -/
theorem startup_failure_before_traffic_witness :
    ((∃ e, (write sampleEnv brokenTransport).val = .error e) ∧
      noTraffic (write sampleEnv brokenTransport).trace) ∧
    ((∃ e, (read sampleEnv countBad).val = .error e) ∧
      noTraffic (read sampleEnv countBad).trace) :=
  ⟨(startup_failure_before_traffic sampleEnv brokenTransport).1
      (Or.inr ⟨{ fileConfig with WriterType := "broken".toList, ReaderType := "broken".toList },
        by decide,
        Or.inr (Or.inr (Or.inr ⟨{ Init := fun _ => some (Error.External 5) },
          Error.External 5, rfl, rfl⟩))⟩),
    (startup_failure_before_traffic sampleEnv countBad).2
      (Or.inl ⟨Error.NumError fnAtoi "bad".toList NumErr.ErrSyntax, by decide⟩)⟩

/-! ## The order of the steps -/

/-- C7: a run of `write` in which every startup step succeeds returns, and its steps are, in
this order: set the log level, build the configuration, create the scheme named by
`SchemeType`, `Init` the scheme, create the writer named by `WriterType`, `Init` the writer,
hand the writer to the scheme's `RunWriter`; `RunWriter` is called exactly once and `RunReader`
never.  A run of `write` that returns is such a run.  The same holds for `read`, with the
reader and `RunReader` in place of the writer and `RunWriter`. -/
theorem run_steps_in_order (env : Env) (ctx : Context) :
    (∀ cfg s w, (config env ctx).val = .ok cfg → env.CreateScheme cfg.SchemeType = .ok s →
      s.Init cfg.Additional = none → env.CreateWriter cfg.WriterType = .ok w →
      w.Init cfg.Additional = none →
      (write env ctx).val = .ok () ∧
      (write env ctx).trace =
        (initLogs env ctx).trace ++ (config env ctx).trace ++
          [Event.CreateScheme cfg.SchemeType,
            Event.SchemeInit cfg.SchemeType cfg.Additional,
            Event.CreateWriter cfg.WriterType,
            Event.WriterInit cfg.WriterType cfg.Additional,
            Event.RunWriter cfg.SchemeType cfg.WriterType] ++
          (s.RunWriter w).map Event.Traffic ∧
      (write env ctx).trace.countP Event.isRunWriter = 1 ∧
      (write env ctx).trace.countP Event.isRunReader = 0) ∧
    ((write env ctx).val = .ok () →
      ∃ cfg s w, (config env ctx).val = .ok cfg ∧ env.CreateScheme cfg.SchemeType = .ok s ∧
        s.Init cfg.Additional = none ∧ env.CreateWriter cfg.WriterType = .ok w ∧
        w.Init cfg.Additional = none) ∧
    (∀ cfg s r, (config env ctx).val = .ok cfg → env.CreateScheme cfg.SchemeType = .ok s →
      s.Init cfg.Additional = none → env.CreateReader cfg.ReaderType = .ok r →
      r.Init cfg.Additional = none →
      (read env ctx).val = .ok () ∧
      (read env ctx).trace =
        (initLogs env ctx).trace ++ (config env ctx).trace ++
          [Event.CreateScheme cfg.SchemeType,
            Event.SchemeInit cfg.SchemeType cfg.Additional,
            Event.CreateReader cfg.ReaderType,
            Event.ReaderInit cfg.ReaderType cfg.Additional,
            Event.RunReader cfg.SchemeType cfg.ReaderType] ++
          (s.RunReader r).map Event.Traffic ∧
      (read env ctx).trace.countP Event.isRunReader = 1 ∧
      (read env ctx).trace.countP Event.isRunWriter = 0) ∧
    ((read env ctx).val = .ok () →
      ∃ cfg s r, (config env ctx).val = .ok cfg ∧ env.CreateScheme cfg.SchemeType = .ok s ∧
        s.Init cfg.Additional = none ∧ env.CreateReader cfg.ReaderType = .ok r ∧
        r.Init cfg.Additional = none) := by
  obtain ⟨q1, q2⟩ := countP_run_of_noTraffic _ (startup_noTraffic env ctx)
  refine ⟨?_, ?_, ?_, ?_⟩
  · intro cfg s w hc h1 h2 h3 h4
    obtain ⟨t1, t2⟩ := countP_run_traffic (s.RunWriter w)
    rw [write_eq env ctx cfg hc, h1]
    dsimp only
    rw [h2]
    dsimp only
    rw [h3]
    dsimp only
    rw [h4]
    refine ⟨rfl, rfl, ?_, ?_⟩
    · simp only [List.countP_append, q1, t1]
      simp [List.countP_cons, Event.isRunWriter]
    · simp only [List.countP_append, q2, t2]
      simp [List.countP_cons, Event.isRunReader]
  · intro hv
    cases hc : (config env ctx).val with
    | error e =>
      rw [write_config_error env ctx e hc] at hv
      cases hv
    | ok cfg =>
      rw [write_eq env ctx cfg hc] at hv
      cases h1 : env.CreateScheme cfg.SchemeType with
      | error e => rw [h1] at hv; cases hv
      | ok s =>
        rw [h1] at hv
        dsimp only at hv
        cases h2 : s.Init cfg.Additional with
        | some e => rw [h2] at hv; cases hv
        | none =>
          rw [h2] at hv
          dsimp only at hv
          cases h3 : env.CreateWriter cfg.WriterType with
          | error e => rw [h3] at hv; cases hv
          | ok w =>
            rw [h3] at hv
            dsimp only at hv
            cases h4 : w.Init cfg.Additional with
            | some e => rw [h4] at hv; cases hv
            | none => exact ⟨cfg, s, w, rfl, h1, h2, h3, h4⟩
  · intro cfg s r hc h1 h2 h3 h4
    obtain ⟨t1, t2⟩ := countP_run_traffic (s.RunReader r)
    rw [read_eq env ctx cfg hc, h1]
    dsimp only
    rw [h2]
    dsimp only
    rw [h3]
    dsimp only
    rw [h4]
    refine ⟨rfl, rfl, ?_, ?_⟩
    · simp only [List.countP_append, q2, t2]
      simp [List.countP_cons, Event.isRunReader]
    · simp only [List.countP_append, q1, t1]
      simp [List.countP_cons, Event.isRunWriter]
  · intro hv
    cases hc : (config env ctx).val with
    | error e =>
      rw [read_config_error env ctx e hc] at hv
      cases hv
    | ok cfg =>
      rw [read_eq env ctx cfg hc] at hv
      cases h1 : env.CreateScheme cfg.SchemeType with
      | error e => rw [h1] at hv; cases hv
      | ok s =>
        rw [h1] at hv
        dsimp only at hv
        cases h2 : s.Init cfg.Additional with
        | some e => rw [h2] at hv; cases hv
        | none =>
          rw [h2] at hv
          dsimp only at hv
          cases h3 : env.CreateReader cfg.ReaderType with
          | error e => rw [h3] at hv; cases hv
          | ok r =>
            rw [h3] at hv
            dsimp only at hv
            cases h4 : r.Init cfg.Additional with
            | some e => rw [h4] at hv; cases hv
            | none => exact ⟨cfg, s, r, rfl, h1, h2, h3, h4⟩

/-- The command `write` on the file `netspel.json`: the run returns after exactly these events,
with one call of `RunWriter` and none of `RunReader`. -/
theorem run_steps_in_order_witness :
    (write sampleEnv fileOnly).val = .ok () ∧
    (write sampleEnv fileOnly).trace.countP Event.isRunWriter = 1 ∧
    (write sampleEnv fileOnly).trace.countP Event.isRunReader = 0 ∧
    (write sampleEnv fileOnly).trace =
      [Event.SetLevel 4, Event.LoadFromFile "netspel.json".toList,
        Event.CreateScheme "simple".toList,
        Event.SchemeInit "simple".toList fileConfig.Additional,
        Event.CreateWriter "udp".toList,
        Event.WriterInit "udp".toList fileConfig.Additional,
        Event.RunWriter "simple".toList "udp".toList,
        Event.Traffic (Traffic.Write [1]), Event.Traffic (Traffic.Write [2])] :=
  ⟨((run_steps_in_order sampleEnv fileOnly).1 fileConfig sampleScheme
      { Init := fun _ => none } (by decide) rfl rfl rfl rfl).1,
    ((run_steps_in_order sampleEnv fileOnly).1 fileConfig sampleScheme
      { Init := fun _ => none } (by decide) rfl rfl rfl rfl).2.2.1,
    ((run_steps_in_order sampleEnv fileOnly).1 fileConfig sampleScheme
      { Init := fun _ => none } (by decide) rfl rfl rfl rfl).2.2.2,
    by decide⟩

/-! ## The usage text on a startup failure -/

/-- C5 fails on the code: `write` with a writer type that is not registered panics without
printing the usage text, where `read` with a reader type that is not registered prints it; and
`read` with a reader whose `Init` fails panics without printing it, where `write` with a writer
whose `Init` fails prints it.  A failing scheme `Init`, a malformed override and an integer
override that does not parse also panic without the usage text. -/
theorem startup_failure_without_usage :
    ((write sampleEnv unknownWriter).val = .error (Error.External 3) ∧
      Event.ShowAppHelp ∉ (write sampleEnv unknownWriter).trace) ∧
    ((read sampleEnv unknownReader).val = .error (Error.External 3) ∧
      Event.ShowAppHelp ∈ (read sampleEnv unknownReader).trace) ∧
    ((read sampleEnv brokenTransport).val = .error (Error.External 5) ∧
      Event.ShowAppHelp ∉ (read sampleEnv brokenTransport).trace) ∧
    ((write sampleEnv brokenTransport).val = .error (Error.External 5) ∧
      Event.ShowAppHelp ∈ (write sampleEnv brokenTransport).trace) ∧
    ((write sampleEnv brokenSchemeInit).val = .error (Error.External 4) ∧
      Event.ShowAppHelp ∉ (write sampleEnv brokenSchemeInit).trace) ∧
    ((write sampleEnv malformedOverride).val
        = .error (Error.Errorf assignmentFormat "count".toList) ∧
      Event.ShowAppHelp ∉ (write sampleEnv malformedOverride).trace) ∧
    ((write sampleEnv countBad).val
        = .error (Error.NumError fnAtoi "bad".toList NumErr.ErrSyntax) ∧
      Event.ShowAppHelp ∉ (write sampleEnv countBad).trace) := by
  refine ⟨⟨?_, ?_⟩, ⟨?_, ?_⟩, ⟨?_, ?_⟩, ⟨?_, ?_⟩, ⟨?_, ?_⟩, ⟨?_, ?_⟩, ⟨?_, ?_⟩⟩ <;> decide

/-! ## The mock writer -/

theorem writeAll_append (m : MockWriter) (msgs : List Msg)
    (h : m.Messages.buf.length + msgs.length ≤ m.Messages.cap) :
    writeAll m msgs = some { m with Messages := { m.Messages with buf := m.Messages.buf ++ msgs } } := by
  induction msgs generalizing m with
  | nil => simp [writeAll]
  | cons a rest ih =>
    have hlt : m.Messages.buf.length < m.Messages.cap := by
      simp only [List.length_cons] at h
      omega
    simp only [writeAll, MockWriter.Write, Chan.send, if_pos hlt]
    rw [ih]
    · simp
    · simp only [List.length_append, List.length_cons, List.length_nil] at h ⊢
      omega

/-- C8: on a `MockWriter` made by `NewMockWriter` (a channel of capacity 10000) that holds fewer
than 10000 pending messages, `Write(m)` returns `(len(m), nil)` and leaves the queue equal to
its previous contents followed by `m`; hence at most 10000 writes to a fresh mock leave exactly
the written messages, in the order written. -/
theorem MockWriter_Write_appends :
    (∀ (w : MockWriter) (m : Msg), w.Messages.cap = 10000 → w.Messages.buf.length < 10000 →
      w.Write m
        = some ({ Messages := { cap := 10000, buf := w.Messages.buf ++ [m] } },
            (m.length, none))) ∧
    (∀ msgs : List Msg, msgs.length ≤ 10000 →
      writeAll NewMockWriter msgs = some { Messages := { cap := 10000, buf := msgs } }) := by
  constructor
  · intro w m hcap hlen
    have hlt : w.Messages.buf.length < w.Messages.cap := by rw [hcap]; exact hlen
    simp [MockWriter.Write, Chan.send, hcap, hlen]
  · intro msgs hlen
    have := writeAll_append NewMockWriter msgs (by simpa [NewMockWriter] using hlen)
    simpa [NewMockWriter] using this

/-- One hundred messages of eight bytes written to a fresh mock: the queue then holds one
hundred messages, and a further write returns the length 8. -/
theorem MockWriter_Write_appends_witness :
    (∃ w, writeAll NewMockWriter (List.replicate 100 (List.replicate 8 0)) = some w ∧
      w.Messages.buf.length = 100 ∧ w.Messages.buf = List.replicate 100 (List.replicate 8 0)) ∧
    NewMockWriter.Write (List.replicate 8 0)
      = some ({ Messages := { cap := 10000, buf := [List.replicate 8 0] } }, (8, none)) :=
  ⟨⟨_, MockWriter_Write_appends.2 (List.replicate 100 (List.replicate 8 0)) (by simp),
      by simp, rfl⟩,
    by simpa using MockWriter_Write_appends.1 NewMockWriter (List.replicate 8 0) rfl (by decide)⟩

end Netspel
